import Mathlib

/-!
Verification development for the lpms media-transcoding surface.

The first part embeds the Go package `ffmpeg` (file `ffmpeg.go`):
the `Transcode` and `RTMPToHLS` wrappers, their per-profile parsing loop
(`strings.Split` on "x", `strconv.Atoi`, `strings.Replace` of the first
"k" by "000"), and the error-return plumbing around the media-runtime
calls `lpms_transcode` / `lpms_rtmp2hls`.  The calls into the media
runtime are embedded as an explicit integer return-code argument `ret`,
since the runtime itself is an external C library.

The second part models, from the specification, the parts of the engine
that live in the media runtime: the aspect-ratio adjustment, the
drop-late-packet policy, the HLS stream reordering, the rolling
playlist, and the statistics-returning transcode operation.
-/

namespace LPMS

/-- The eight error kinds of the spec's error taxonomy. -/
inductive FFError where
  | EmptyData
  | InvalidData
  | CodecNotFound
  | FormatNotFound
  | MuxerFailure
  | DemuxerFailure
  | HWEncoderInitFailure
  | GenericError
deriving DecidableEq, Repr

/-- Modelled from the spec: the maintained mapping table from nonzero
media-runtime return codes to error kinds (`ErrorMap` in the Go source;
the table's contents live outside the embedded files, so unclassified
codes map to `GenericError`). -/
def ErrorMap (ret : Int) : FFError :=
  if ret = -1 then .EmptyData
  else if ret = -2 then .InvalidData
  else if ret = -3 then .CodecNotFound
  else if ret = -4 then .FormatNotFound
  else if ret = -5 then .MuxerFailure
  else if ret = -6 then .DemuxerFailure
  else if ret = -7 then .HWEncoderInitFailure
  else .GenericError

/-- Errors a Go-side call can return: the sentinel
`ErrTranscoderRes`, a `strconv.Atoi` parse error carrying the string
that failed to parse, or a media-runtime error kind. -/
inductive GoError where
  | transcoderRes
  | atoi (s : String)
  | ff (e : FFError)
deriving DecidableEq, Repr

/-- The sentinel `ErrTranscoderRes = errors.New("TranscoderInvalidResolution")`. -/
def ErrTranscoderRes : GoError := .transcoderRes

/-- `VideoProfile` as consumed by `Transcode`: a resolution string
`"<w>x<h>"`, a bitrate string such as `"100k"`, and a framerate. -/
structure VideoProfile where
  Resolution : String
  Bitrate : String
  Framerate : Int
deriving DecidableEq, Repr

/-- The C `output_params` struct filled in by the `Transcode` loop:
output file name, framerate as a rational `num/den`, width, height,
bitrate. -/
structure output_params where
  fname : String
  fpsNum : Int
  fpsDen : Int
  w : Int
  h : Int
  bitrate : Int
deriving DecidableEq, Repr

/-- Magnitude of a digit string read in base 10. -/
def digitsToNat (cs : List Char) : Nat :=
  cs.foldl (fun acc c => acc * 10 + (c.toNat - 48)) 0

/-- Go `strconv.Atoi`: optional leading sign, then one or more ASCII
digits; anything else (including the empty string) is a syntax error,
and values outside the 64-bit signed range are a range error.  Both
errors carry the argument string, as Go's `NumError` does. -/
def goAtoi (s : String) : Except GoError Int :=
  let cs := s.data
  let sd : Bool × List Char :=
    match cs with
    | '-' :: rest => (true, rest)
    | '+' :: rest => (false, rest)
    | _ => (false, cs)
  if sd.2 = [] then .error (.atoi s)
  else if !sd.2.all Char.isDigit then .error (.atoi s)
  else
    let v : Int := if sd.1 then -(digitsToNat sd.2 : Int) else (digitsToNat sd.2 : Int)
    if v < -(2 ^ 63) ∨ 2 ^ 63 - 1 < v then .error (.atoi s)
    else .ok v

/-- Go `strings.Replace(s, "k", "000", 1)` on the character list:
replace only the first occurrence of `k` by `000`. -/
def replaceFirstK : List Char → List Char
  | [] => []
  | c :: cs => if c = 'k' then '0' :: '0' :: '0' :: cs else c :: replaceFirstK cs

/-- Go `strings.Replace(s, "k", "000", 1)` on strings. -/
def goReplaceK (s : String) : String := ⟨replaceFirstK s.data⟩

/-- Go `strings.Split(s, sep)` for a one-character separator, on the
character list: splitting the empty string yields one empty component,
and each separator occurrence starts a new component. -/
def splitOnChar (c : Char) : List Char → List (List Char)
  | [] => [[]]
  | a :: rest =>
    if a = c then [] :: splitOnChar c rest
    else
      match splitOnChar c rest with
      | [] => [[a]]
      | x :: xs => (a :: x) :: xs

/-- Go `strings.Split(s, "x")` on strings. -/
def goSplitX (s : String) : List String :=
  (splitOnChar 'x' s.data).map (fun l => ⟨l⟩)

/-- The body of the `Transcode` per-profile loop (without the output
name, which depends on the loop index): split the resolution on "x" and
fail with `ErrTranscoderRes` when fewer than two components result,
parse width, then height, then the bitrate after replacing the first
"k" with "000".  Errors short-circuit in exactly this order. -/
def parseProfile (p : VideoProfile) : Except GoError (Int × Int × Int) :=
  match goSplitX p.Resolution with
  | r0 :: r1 :: _ =>
    match goAtoi r0 with
    | .error e => .error e
    | .ok w =>
      match goAtoi r1 with
      | .error e => .error e
      | .ok hh =>
        match goAtoi (goReplaceK p.Bitrate) with
        | .error e => .error e
        | .ok b => .ok (w, hh, b)
  | _ => .error ErrTranscoderRes

/-- The `Transcode` loop over profiles, carrying the running index used
in `fmt.Sprintf("out%v%v", i, input)`: the first parse failure aborts
the whole call. -/
def transcodeParamsAux (input : String) : Nat → List VideoProfile → Except GoError (List output_params)
  | _, [] => .ok []
  | i, p :: ps =>
    match parseProfile p with
    | .error e => .error e
    | .ok (w, hh, b) =>
      match transcodeParamsAux input (i + 1) ps with
      | .error e => .error e
      | .ok rest =>
        .ok ({ fname := "out" ++ toString i ++ input, fpsNum := p.Framerate,
               fpsDen := 1, w := w, h := hh, bitrate := b } :: rest)

/-- The parameter-building phase of `Transcode` starting at index 0. -/
def transcodeParams (input : String) (ps : List VideoProfile) : Except GoError (List output_params) :=
  transcodeParamsAux input 0 ps

/-- Outcome of a `Transcode` call: a normal return carrying a Go error
value (`none` being a nil error), or a Go runtime panic (the
out-of-range index at `&params[0]` when the parameter slice is
empty). -/
inductive TranscodeOutcome where
  | ret (err : Option GoError)
  | panics
deriving DecidableEq, Repr

/-- Whether `Transcode` reaches the `lpms_transcode` call: it does so
exactly when every profile parses and the built parameter slice is
nonempty — on an empty slice the evaluation of `&params[0]` panics
before the runtime call. -/
def transcodeCallsRuntime (input : String) (ps : List VideoProfile) : Bool :=
  match transcodeParams input ps with
  | .ok params => !params.isEmpty
  | .error _ => false

/-- `Transcode(input, ps)`: build the output parameter list (any parse
failure returns its error before the runtime is reached), then call
`lpms_transcode(inp, &params[0], len(params))` — on an empty slice the
`&params[0]` argument panics with an index-out-of-range before the
call; its return code is the explicit argument `ret`.  A normal call
returns nil (`none`) on 0 and `ErrorMap[ret]` otherwise. -/
def Transcode (input : String) (ps : List VideoProfile) (ret : Int) : TranscodeOutcome :=
  match transcodeParams input ps with
  | .error e => .ret (some e)
  | .ok params =>
    if params.isEmpty then .panics
    else if ret ≠ 0 then .ret (some (.ff (ErrorMap ret))) else .ret none

/-- `RTMPToHLS(url, outM3U8, tmpl, seglen)`: call `lpms_rtmp2hls` (its
return code is the explicit argument `ret`); return nil (`none`) on 0
and `ErrorMap[ret]` otherwise. -/
def RTMPToHLS (localRTMPUrl outM3U8 tmpl seglen_secs : String) (ret : Int) : Option GoError :=
  if ret ≠ 0 then some (.ff (ErrorMap ret)) else none

/-- Round the rational `num / den` to the nearest even natural number
(halves rounding up). -/
def roundToEven (num den : Nat) : Nat :=
  (num + den) / (den * 2) * 2

/-- Modelled from the spec: the aspect-ratio adjustment of the filter
stage (the scaler lives in the media runtime, outside the embedded
files), mapping source dimensions `w × h` and target dimensions
`tw × th` to the adjusted output dimensions.  The dimension on the
source's longer axis is pinned to the target's dimension on that axis
— width when the source width is at least the height (so a square
source pins to the target width), height otherwise — and the other
dimension is scaled by the source aspect ratio and rounded to the
nearest even number. -/
def adjustedDims (w h tw th : Nat) : Nat × Nat :=
  if h ≤ w then (tw, roundToEven (h * tw) w)
  else (roundToEven (w * th) h, th)

/-- A demuxed packet as the segmenter sees it: stream id, whether the
stream is video, and the container DTS. -/
structure Packet where
  sid : Nat
  isVideo : Bool
  dts : Int
deriving DecidableEq, Repr

/-- The per-stream record of the previous accepted DTS. -/
def lastDts (st : List (Nat × Int)) (sid : Nat) : Option Int :=
  match st.find? (fun q => q.1 = sid) with
  | some q => some q.2
  | none => none

/-- Record a newly accepted DTS for a stream. -/
def setDts (st : List (Nat × Int)) (sid : Nat) (d : Int) : List (Nat × Int) :=
  match st with
  | [] => [(sid, d)]
  | q :: rest => if q.1 = sid then (sid, d) :: rest else q :: setDts rest sid d

/-- Modelled from the spec: the drop-late-packet policy of the decoder
session and segmenter (implemented in the media runtime, outside the
embedded files).  A video packet whose DTS is less than the previous
accepted DTS on the same stream is discarded and does not advance the
recorded DTS; audio packets always pass through. -/
def dropLate (st : List (Nat × Int)) : List Packet → List Packet
  | [] => []
  | p :: ps =>
    if p.isVideo then
      match lastDts st p.sid with
      | some d =>
        if p.dts < d then dropLate st ps
        else p :: dropLate (setDts st p.sid p.dts) ps
      | none => p :: dropLate (setDts st p.sid p.dts) ps
    else p :: dropLate st ps

/-- A concrete packet list shaped like the doctored FLV test input: the
video DTS sequence ends 18867, 18833, 18933 with audio interleaved. -/
def flvTailPackets : List Packet :=
  [⟨0, true, 18800⟩, ⟨1, false, 18810⟩, ⟨0, true, 18867⟩,
   ⟨1, false, 18870⟩, ⟨0, true, 18833⟩, ⟨0, true, 18933⟩]

/-- The media types the segmenter distinguishes. -/
inductive AVMediaType where
  | video
  | audio
  | subtitle
  | data
deriving DecidableEq, Repr

/-- Modelled from the spec: the segmenter's stream reordering
(implemented in the media runtime, outside the embedded files).  Input
streams are pairs of input index and media type; the HLS output keeps
the video stream at output index 0 and the audio stream at output
index 1 and drops every other stream type. -/
def hlsStreamOrder (ss : List (Nat × AVMediaType)) : List (Nat × AVMediaType) :=
  (ss.filter (fun q => q.2 = AVMediaType.video)).take 1 ++
  (ss.filter (fun q => q.2 = AVMediaType.audio)).take 1

/-- The default rolling-window length of the segmenter's playlist. -/
def defaultMaxSegments : Nat := 6

/-- The effective window: the default when `maxSegments` is unset (0). -/
def effectiveMaxSegments (m : Nat) : Nat :=
  if m = 0 then defaultMaxSegments else m

/-- Modelled from the spec: appending one finished segment to the live
window — once the number of live segments exceeds the bound, the
oldest segments are deleted from disk and dropped from the playlist. -/
def pushSegment (m : Nat) (live : List Nat) (i : Nat) : List Nat :=
  let grown := live ++ [i]
  if m < grown.length then grown.drop (grown.length - m) else grown

/-- The segment files still on disk after emitting `n` segments under
window bound `m` (0 meaning unset). -/
def segmentsOnDisk (m n : Nat) : List Nat :=
  (List.range n).foldl (pushSegment (effectiveMaxSegments m)) []

/-- Modelled from the spec: the observable disk state of
`segmentRTMPToHLS(inputURL, playlistPath, segmentTemplate,
segmentSeconds, maxSegments)` — an input of the given duration cut at
`segSecs` boundaries yields `duration / segSecs` segments run through
the rolling window. -/
def segmentRTMPToHLS (durationSecs segSecs maxSegments : Nat) : List Nat :=
  segmentsOnDisk maxSegments (durationSecs / segSecs)

/-- Frame and pixel statistics for one stream (`MediaInfo` in the
repository's API). -/
structure MediaInfo where
  Frames : Int
  Pixels : Int
deriving DecidableEq, Repr

/-- The statistics record returned by a successful transcode. -/
structure TranscodeResults where
  Decoded : MediaInfo
  Encoded : List MediaInfo
deriving DecidableEq, Repr

/-- A decoded frame: its actual width and height. -/
structure Frame where
  w : Nat
  h : Nat
deriving DecidableEq, Repr

/-- Modelled from the spec: decoded statistics — the frame count after
drop-late filtering and the sum of each frame's actual width times
height. -/
def decodedStats (fs : List Frame) : MediaInfo :=
  ⟨fs.length, (fs.map (fun f => (f.w * f.h : Int))).sum⟩

/-- One requested output for the statistics-returning transcode: the
target width, height and framerate of its profile. -/
structure OutSpec where
  tw : Nat
  th : Nat
  fps : Nat
deriving DecidableEq, Repr

/-- Modelled from the spec: encoded statistics for one output — the
encoded frame count is the source frame count scaled by target over
source framerate, and encoded pixels use the post-aspect-ratio-adjusted
output dimensions. -/
def encodedStats (srcW srcH srcFps nframes : Nat) (o : OutSpec) : MediaInfo :=
  let dims := adjustedDims srcW srcH o.tw o.th
  let ef := nframes * o.fps / srcFps
  ⟨ef, (ef * dims.1 * dims.2 : Int)⟩

/-- Modelled from the spec: the statistics-returning transcode
operation `transcode(inputSpec, [outputSpec]) -> TranscodeResults |
Error` (`Transcode3` in the repository's API, outside the embedded
files).  The media runtime's decode outcome is the explicit
`decodeRes` argument; on success the call returns decoded statistics
for the input and encoded statistics for each requested output. -/
def Transcode3 (decodeRes : Except FFError (List Frame)) (srcW srcH srcFps : Nat)
    (outs : List OutSpec) : Except FFError TranscodeResults :=
  match decodeRes with
  | .error e => .error e
  | .ok fs => .ok ⟨decodedStats fs, outs.map (encodedStats srcW srcH srcFps fs.length)⟩

/-- The first parse error produced by the `Transcode` loop over a
profile list, if any. -/
def firstParseError : List VideoProfile → Option GoError
  | [] => none
  | p :: ps =>
    match parseProfile p with
    | .error e => some e
    | .ok _ => firstParseError ps

end LPMS

namespace LPMS

/-- A profile whose resolution splits on "x" into fewer than two
components fails the parse with the sentinel `ErrTranscoderRes`. -/
theorem parseProfile_res_short {p : VideoProfile}
    (h : (goSplitX p.Resolution).length < 2) :
    parseProfile p = .error ErrTranscoderRes := by
  unfold parseProfile
  cases hs : goSplitX p.Resolution with
  | nil => rfl
  | cons a t =>
    cases t with
    | nil => rfl
    | cons b t2 =>
      rw [hs] at h
      simp at h
      omega

/-- If the loop's first parse error is `e`, the parameter-building pass
fails with `e`, from any starting index. -/
theorem transcodeParamsAux_error_of_first {ps : List VideoProfile} {e : GoError}
    (h : firstParseError ps = some e) (input : String) (k : Nat) :
    transcodeParamsAux input k ps = .error e := by
  induction ps generalizing k with
  | nil => simp [firstParseError] at h
  | cons p rest ih =>
    unfold firstParseError at h
    unfold transcodeParamsAux
    cases hp : parseProfile p with
    | error e2 => rw [hp] at h; simp at h; simp [h]
    | ok v =>
      rw [hp] at h
      simp at h
      obtain ⟨w, hh, b⟩ := v
      simp [ih h (k + 1)]

/-- If the loop produces no parse error, the parameter-building pass
succeeds, from any starting index. -/
theorem transcodeParamsAux_ok_of_first {ps : List VideoProfile}
    (h : firstParseError ps = none) (input : String) (k : Nat) :
    ∃ l, transcodeParamsAux input k ps = .ok l := by
  induction ps generalizing k with
  | nil => exact ⟨[], rfl⟩
  | cons p rest ih =>
    unfold firstParseError at h
    unfold transcodeParamsAux
    cases hp : parseProfile p with
    | error e2 => rw [hp] at h; simp at h
    | ok v =>
      rw [hp] at h
      obtain ⟨w, hh, b⟩ := v
      obtain ⟨l, hl⟩ := ih h (k + 1)
      rw [hl]
      exact ⟨_, rfl⟩

/-- The loop's first parse error is the parse error of some listed
profile. -/
theorem firstParseError_mem {ps : List VideoProfile} {e : GoError}
    (h : firstParseError ps = some e) :
    ∃ q ∈ ps, parseProfile q = .error e := by
  induction ps with
  | nil => simp [firstParseError] at h
  | cons p rest ih =>
    unfold firstParseError at h
    cases hp : parseProfile p with
    | error e2 =>
      rw [hp] at h; simp at h
      exact ⟨p, by simp, by rw [hp, h]⟩
    | ok v =>
      rw [hp] at h
      obtain ⟨q, hq, hqe⟩ := ih h
      exact ⟨q, by simp [hq], hqe⟩

/-- If some profile fails to parse, the loop produces a first parse
error. -/
theorem firstParseError_of_exists_bad {ps : List VideoProfile}
    (h : ∃ p ∈ ps, ∃ e, parseProfile p = .error e) :
    ∃ e, firstParseError ps = some e := by
  induction ps with
  | nil => simp at h
  | cons p rest ih =>
    unfold firstParseError
    cases hp : parseProfile p with
    | error e2 => exact ⟨e2, rfl⟩
    | ok v =>
      obtain ⟨q, hq, e, he⟩ := h
      rcases List.mem_cons.mp hq with rfl | hq2
      · rw [hp] at he; cases he
      · exact ih ⟨q, hq2, e, he⟩

/-- If every profile before index `i` parses and the profile at index
`i` fails with `e`, then `e` is the loop's first parse error. -/
theorem firstParseError_at_index {ps : List VideoProfile} {i : Nat} {p : VideoProfile}
    {e : GoError} (hp : ps[i]? = some p)
    (hok : ∀ j q, j < i → ps[j]? = some q → ∃ v, parseProfile q = .ok v)
    (he : parseProfile p = .error e) :
    firstParseError ps = some e := by
  induction ps generalizing i with
  | nil => simp at hp
  | cons p0 rest ih =>
    unfold firstParseError
    cases i with
    | zero =>
      simp at hp
      subst hp
      simp [he]
    | succ i2 =>
      obtain ⟨v, hv⟩ := hok 0 p0 (Nat.succ_pos i2) (by simp)
      rw [hv]
      simp at hp
      exact ih hp (fun j q hj hq => hok (j + 1) q (by omega) (by simpa using hq))

/-- `Transcode` in terms of the loop's first parse error. -/
theorem Transcode_eq_of_first_error {ps : List VideoProfile} {e : GoError}
    (h : firstParseError ps = some e) (input : String) (ret : Int) :
    Transcode input ps ret = .ret (some e) ∧ transcodeCallsRuntime input ps = false := by
  have hp := transcodeParamsAux_error_of_first h input 0
  constructor
  · unfold Transcode transcodeParams
    rw [hp]
  · unfold transcodeCallsRuntime transcodeParams
    rw [hp]

/-- C1: for every call to `Transcode` or `RTMPToHLS` that reaches the
media runtime, the Go function returns nil exactly when the runtime
call (`lpms_transcode` / `lpms_rtmp2hls`) returns 0, and for every
nonzero runtime return code `ret` it returns the error that `ret` maps
to in the maintained `ErrorMap` table; a `Transcode` call with an
empty profile list never reaches the runtime — it panics at
`&params[0]` instead of returning. -/
theorem transcode_rtmp2hls_error_mapping :
    (∀ url m3u8 tmpl seglen : String, ∀ ret : Int,
      (RTMPToHLS url m3u8 tmpl seglen ret = none ↔ ret = 0) ∧
      (ret ≠ 0 → RTMPToHLS url m3u8 tmpl seglen ret = some (.ff (ErrorMap ret)))) ∧
    (∀ input : String, ∀ ps : List VideoProfile, ∀ ret : Int,
      transcodeCallsRuntime input ps = true →
      (Transcode input ps ret = .ret none ↔ ret = 0) ∧
      (ret ≠ 0 → Transcode input ps ret = .ret (some (.ff (ErrorMap ret))))) ∧
    (∀ input : String, ∀ ret : Int,
      Transcode input [] ret = .panics ∧ transcodeCallsRuntime input [] = false) := by
  refine ⟨?_, ?_, ?_⟩
  · intro url m3u8 tmpl seglen ret
    constructor
    · unfold RTMPToHLS
      by_cases h : ret = 0 <;> simp [h]
    · intro h
      unfold RTMPToHLS
      simp [h]
  · intro input ps ret hcall
    unfold transcodeCallsRuntime at hcall
    unfold Transcode
    cases hp : transcodeParams input ps with
    | error e => rw [hp] at hcall; simp at hcall
    | ok l =>
      rw [hp] at hcall
      simp at hcall
      have hne : l.isEmpty = false := by simpa using hcall
      constructor
      · by_cases h : ret = 0 <;> simp [h, hne]
      · intro h
        simp [h, hne]
  · intro input ret
    exact ⟨rfl, rfl⟩

/-- Witness for C1 at a concrete call: runtime code 5 yields the
mapped error, runtime code -2 from the segmenter yields its mapped
error, and the empty profile list panics before the runtime. -/
theorem transcode_rtmp2hls_error_mapping_witness :
    Transcode "in.ts" [⟨"640x480", "100k", 30⟩] 5 = .ret (some (.ff (ErrorMap 5))) ∧
    RTMPToHLS "rtmp://localhost" "out.m3u8" "out_%d.ts" "8" (-2) =
      some (.ff (ErrorMap (-2))) ∧
    Transcode "in.ts" [] 5 = .panics :=
  ⟨(transcode_rtmp2hls_error_mapping.2.1 "in.ts" [⟨"640x480", "100k", 30⟩] 5
      (by decide)).2 (by decide),
   (transcode_rtmp2hls_error_mapping.1 "rtmp://localhost" "out.m3u8" "out_%d.ts" "8"
      (-2)).2 (by decide),
   (transcode_rtmp2hls_error_mapping.2.2 "in.ts" 5).1⟩

/-- C9: the bitrate integer handed to the media runtime is obtained by
replacing only the first "k" in the profile's Bitrate string with
"000" and parsing the result as a decimal integer: "100k" parses to
100000, "1k5" parses to 10005, and a string keeping a "k" after the
replacement (such as "1k5k") makes `Transcode` return the
integer-parse error for the replaced string. -/
theorem bitrate_parse_first_k :
    transcodeParams "test.ts" [⟨"640x480", "100k", 30⟩] =
      .ok [{ fname := "out0test.ts", fpsNum := 30, fpsDen := 1,
             w := 640, h := 480, bitrate := 100000 }] ∧
    transcodeParams "test.ts" [⟨"640x480", "1k5", 30⟩] =
      .ok [{ fname := "out0test.ts", fpsNum := 30, fpsDen := 1,
             w := 640, h := 480, bitrate := 10005 }] ∧
    goReplaceK "1k5k" = "10005k" ∧
    Transcode "test.ts" [⟨"640x480", "1k5k", 30⟩] 0 = .ret (some (.atoi "10005k")) ∧
    (∀ b : String, ∀ fr : Int, parseProfile ⟨"640x480", b, fr⟩ =
      (goAtoi (goReplaceK b)).map (fun x => (640, 480, x))) := by
  refine ⟨by rfl, by rfl, by rfl, by rfl, ?_⟩
  intro b fr
  unfold parseProfile
  show (match goAtoi (goReplaceK b) with
        | .error e => Except.error e
        | .ok x => Except.ok ((640 : Int), (480 : Int), x)) = _
  cases goAtoi (goReplaceK b) <;> rfl

/-- `strconv.Atoi` fails only with the parse error carrying its
argument string. -/
theorem goAtoi_error_shape {s : String} {e : GoError} (h : goAtoi s = .error e) :
    e = .atoi s := by
  unfold goAtoi at h
  dsimp only at h
  split_ifs at h <;> injection h with h2 <;> exact h2.symm

/-- Any error of the per-profile parse is the resolution sentinel or an
integer-parse error; media-runtime error kinds never arise there. -/
theorem parseProfile_error_shape {p : VideoProfile} {e : GoError}
    (h : parseProfile p = .error e) :
    e = ErrTranscoderRes ∨ ∃ s, e = .atoi s := by
  unfold parseProfile at h
  cases hs : goSplitX p.Resolution with
  | nil =>
    rw [hs] at h
    injection h with h2
    exact Or.inl h2.symm
  | cons r0 t =>
    cases t with
    | nil =>
      rw [hs] at h
      injection h with h2
      exact Or.inl h2.symm
    | cons r1 t2 =>
      rw [hs] at h
      dsimp only at h
      cases h0 : goAtoi r0 with
      | error e0 =>
        rw [h0] at h
        injection h with h2
        exact Or.inr ⟨r0, h2.symm.trans (goAtoi_error_shape h0)⟩
      | ok w =>
        rw [h0] at h
        dsimp only at h
        cases h1 : goAtoi r1 with
        | error e1 =>
          rw [h1] at h
          injection h with h2
          exact Or.inr ⟨r1, h2.symm.trans (goAtoi_error_shape h1)⟩
        | ok hh =>
          rw [h1] at h
          dsimp only at h
          cases h2 : goAtoi (goReplaceK p.Bitrate) with
          | error e2 =>
            rw [h2] at h
            injection h with h3
            exact Or.inr ⟨goReplaceK p.Bitrate, h3.symm.trans (goAtoi_error_shape h2)⟩
          | ok b =>
            rw [h2] at h
            cases h

/-- C2 (counterexample): a profile list whose second profile has the
malformed resolution "123" but whose first profile has the unparseable
bitrate "zzz" makes `Transcode` return the bitrate parse error, not
`ErrTranscoderRes`, although some profile's resolution splits on "x"
into fewer than two components. -/
theorem transcode_res_error_counterexample :
    (goSplitX "123").length < 2 ∧
    Transcode "in.ts" [⟨"64x64", "zzz", 30⟩, ⟨"123", "100k", 30⟩] 0 =
      .ret (some (.atoi "zzz")) ∧
    GoError.atoi "zzz" ≠ ErrTranscoderRes := by
  refine ⟨by decide, by rfl, by decide⟩

/-- C2 (amended): if a profile's resolution splits on "x" into fewer
than two components and every earlier profile parses successfully,
then `Transcode` fails with `ErrTranscoderRes`; and whenever any
profile fails to parse, `lpms_transcode` is never invoked. -/
theorem transcode_res_error_amended :
    ∀ (input : String) (ps : List VideoProfile) (ret : Int) (i : Nat) (p : VideoProfile),
      ps[i]? = some p →
      (∀ j q, j < i → ps[j]? = some q → ∃ v, parseProfile q = .ok v) →
      (goSplitX p.Resolution).length < 2 →
      Transcode input ps ret = .ret (some ErrTranscoderRes) ∧
      transcodeCallsRuntime input ps = false := by
  intro input ps ret i p hp hok hres
  have he : parseProfile p = .error ErrTranscoderRes := parseProfile_res_short hres
  have hf := firstParseError_at_index hp hok he
  exact Transcode_eq_of_first_error hf input ret

/-- Witness for the amended C2: the first profile parses and the second
has resolution "123", so the call fails with `ErrTranscoderRes` and
never reaches the media runtime. -/
theorem transcode_res_error_amended_witness :
    Transcode "in.ts" [⟨"640x480", "100k", 30⟩, ⟨"123", "100k", 30⟩] 0 =
      .ret (some ErrTranscoderRes) ∧
    transcodeCallsRuntime "in.ts" [⟨"640x480", "100k", 30⟩, ⟨"123", "100k", 30⟩] = false :=
  transcode_res_error_amended "in.ts" [⟨"640x480", "100k", 30⟩, ⟨"123", "100k", 30⟩] 0 1
    ⟨"123", "100k", 30⟩ (by rfl)
    (fun j q hj hq => by
      have hj0 : j = 0 := by omega
      subst hj0
      simp at hq
      subst hq
      exact ⟨(640, 480, 100000), by rfl⟩)
    (by decide)

/-- C3 (counterexample): `Transcode` names the output for profile `i`
by appending the input string as given, so with input path
"/tmp/test.mp4" the destination is "out0/tmp/test.mp4" and not
"out0test.mp4" (`"out0"` plus the base name "test.mp4" of the path)
in the current directory. -/
theorem transcode_output_name_counterexample :
    transcodeParams "/tmp/test.mp4" [⟨"640x480", "100k", 30⟩] =
      .ok [{ fname := "out0/tmp/test.mp4", fpsNum := 30, fpsDen := 1,
             w := 640, h := 480, bitrate := 100000 }] ∧
    ("out0/tmp/test.mp4" : String) ≠ "out0" ++ "test.mp4" := by
  refine ⟨by rfl, by decide⟩

/-- In the parameter-building pass started at index `k`, the output at
position `i` is named by the running index `k + i` and the verbatim
input string. -/
theorem transcodeParamsAux_fname {input : String} {ps : List VideoProfile} {k : Nat}
    {l : List output_params} (h : transcodeParamsAux input k ps = .ok l) :
    ∀ i o, l[i]? = some o → o.fname = "out" ++ toString (k + i) ++ input := by
  induction ps generalizing k l with
  | nil =>
    unfold transcodeParamsAux at h
    injection h with h2
    subst h2
    intro i o hio
    simp at hio
  | cons p rest ih =>
    unfold transcodeParamsAux at h
    cases hp : parseProfile p with
    | error e => rw [hp] at h; cases h
    | ok v =>
      rw [hp] at h
      obtain ⟨w, hh, b⟩ := v
      cases hr : transcodeParamsAux input (k + 1) rest with
      | error e => rw [hr] at h; cases h
      | ok l2 =>
        rw [hr] at h
        injection h with h2
        subst h2
        intro i o hio
        cases i with
        | zero =>
          simp at hio
          subst hio
          simp
        | succ i2 =>
          simp at hio
          have hrec := ih hr i2 o hio
          rw [hrec]
          have harith : k + 1 + i2 = k + (i2 + 1) := by omega
          rw [harith]

/-- C3 (amended): the output destination for the `i`-th profile of a
`Transcode` call with input string `p` is named `out<i><p>`, appending
the input string verbatim (this equals `out<i><basename>` in the
current directory exactly when `p` has no directory component). -/
theorem transcode_output_name_amended :
    ∀ (input : String) (ps : List VideoProfile) (l : List output_params)
      (i : Nat) (o : output_params),
      transcodeParams input ps = .ok l → l[i]? = some o →
      o.fname = "out" ++ toString i ++ input := by
  intro input ps l i o h hio
  have hr := transcodeParamsAux_fname h i o hio
  simpa using hr

/-- Witness for the amended C3: the single output of a call with input
path "/tmp/test.mp4" is named "out0/tmp/test.mp4". -/
theorem transcode_output_name_amended_witness :
    ({ fname := "out0/tmp/test.mp4", fpsNum := 30, fpsDen := 1,
       w := 640, h := 480, bitrate := 100000 } : output_params).fname =
      "out" ++ toString 0 ++ "/tmp/test.mp4" :=
  transcode_output_name_amended "/tmp/test.mp4" [⟨"640x480", "100k", 30⟩]
    [{ fname := "out0/tmp/test.mp4", fpsNum := 30, fpsDen := 1,
       w := 640, h := 480, bitrate := 100000 }] 0 _ (by rfl) (by rfl)

/-- C10: if any profile fails to parse (malformed resolution component
or bitrate), `Transcode` returns the parse error of one of the listed
profiles — never a media-runtime error kind — and `lpms_transcode` is
never invoked, so the call has no effect through the media runtime. -/
theorem transcode_parse_error_short_circuit :
    ∀ (input : String) (ps : List VideoProfile) (ret : Int),
      (∃ p ∈ ps, ∃ e, parseProfile p = .error e) →
      (∃ q ∈ ps, ∃ e, parseProfile q = .error e ∧ Transcode input ps ret = .ret (some e) ∧
        (e = ErrTranscoderRes ∨ ∃ s, e = .atoi s)) ∧
      transcodeCallsRuntime input ps = false := by
  intro input ps ret hbad
  obtain ⟨e, he⟩ := firstParseError_of_exists_bad hbad
  obtain ⟨q, hq, hqe⟩ := firstParseError_mem he
  have ht := Transcode_eq_of_first_error he input ret
  exact ⟨⟨q, hq, e, hqe, ht.1, parseProfile_error_shape hqe⟩, ht.2⟩

/-- Witness for C10: a profile with non-numeric height component makes
the call fail with a parse error before the runtime is reached. -/
theorem transcode_parse_error_short_circuit_witness :
    (∃ q ∈ [(⟨"640xa", "100k", 30⟩ : VideoProfile)], ∃ e, parseProfile q = .error e ∧
      Transcode "in.ts" [⟨"640xa", "100k", 30⟩] 7 = .ret (some e) ∧
      (e = ErrTranscoderRes ∨ ∃ s, e = .atoi s)) ∧
    transcodeCallsRuntime "in.ts" [⟨"640xa", "100k", 30⟩] = false :=
  transcode_parse_error_short_circuit "in.ts" [⟨"640xa", "100k", 30⟩] 7
    ⟨⟨"640xa", "100k", 30⟩, by simp, GoError.atoi "a", by rfl⟩

/-- C4: every successful call of the statistics-returning transcode
operation returns a `TranscodeResults` holding the decoded frame and
pixel counts of the input and, for each requested output, its encoded
frame and pixel counts. -/
theorem transcode3_results_stats :
    ∀ (d : Except FFError (List Frame)) (srcW srcH srcFps : Nat) (outs : List OutSpec)
      (r : TranscodeResults),
      Transcode3 d srcW srcH srcFps outs = .ok r →
      (∃ fs, d = .ok fs ∧ r.Decoded = decodedStats fs ∧
        r.Encoded = outs.map (encodedStats srcW srcH srcFps fs.length)) ∧
      r.Encoded.length = outs.length := by
  intro d srcW srcH srcFps outs r h
  cases d with
  | error e => cases h
  | ok fs =>
    unfold Transcode3 at h
    injection h with h2
    subst h2
    exact ⟨⟨fs, rfl, rfl, rfl⟩, by simp⟩

/-- Witness for C4 on a decode of two 1280x720 frames with one 426x240
at 30 fps output requested. -/
theorem transcode3_results_stats_witness :
    (∃ fs, (Except.ok [(⟨1280, 720⟩ : Frame), ⟨1280, 720⟩] : Except FFError (List Frame)) =
        .ok fs ∧
      (⟨⟨2, 1843200⟩, [⟨2, 204480⟩]⟩ : TranscodeResults).Decoded = decodedStats fs ∧
      (⟨⟨2, 1843200⟩, [⟨2, 204480⟩]⟩ : TranscodeResults).Encoded =
        [(⟨426, 240, 30⟩ : OutSpec)].map (encodedStats 1280 720 30 fs.length)) ∧
    (⟨⟨2, 1843200⟩, [⟨2, 204480⟩]⟩ : TranscodeResults).Encoded.length =
      [(⟨426, 240, 30⟩ : OutSpec)].length :=
  transcode3_results_stats (.ok [⟨1280, 720⟩, ⟨1280, 720⟩]) 1280 720 30 [⟨426, 240, 30⟩]
    ⟨⟨2, 1843200⟩, [⟨2, 204480⟩]⟩ (by rfl)

/-- The audio packets of the input pass the drop-late filter unchanged,
in order. -/
theorem dropLate_audio_preserved :
    ∀ (st : List (Nat × Int)) (ps : List Packet),
      (dropLate st ps).filter (fun p => !p.isVideo) = ps.filter (fun p => !p.isVideo) := by
  intro st ps
  induction ps generalizing st with
  | nil => rfl
  | cons p rest ih =>
    unfold dropLate
    by_cases hv : p.isVideo
    · cases hl : lastDts st p.sid with
      | some d =>
        by_cases hd : p.dts < d
        · simp only [hv, if_true, hl, hd]
          rw [ih st]
          simp [hv]
        · simp only [hv, if_true, hl, hd, if_false]
          simp [hv, ih]
      | none =>
        simp only [hv, if_true, hl]
        simp [hv, ih]
    · have hv2 : p.isVideo = false := by simpa using hv
      simp only [hv2]
      simp [hv2, ih]

/-- C5: audio packets are never dropped by the drop-late policy; a
video packet whose DTS is below the previous accepted DTS on its
stream is discarded without advancing the recorded DTS; and on the
doctored FLV-like input whose video DTS sequence ends 18867, 18833,
18933 the output carries exactly one fewer video packet than the
input. -/
theorem segmenter_drop_late_packets :
    (∀ (st : List (Nat × Int)) (ps : List Packet),
      (dropLate st ps).filter (fun p => !p.isVideo) = ps.filter (fun p => !p.isVideo)) ∧
    (∀ (st : List (Nat × Int)) (p : Packet) (ps : List Packet) (d : Int),
      p.isVideo = true → lastDts st p.sid = some d → p.dts < d →
      dropLate st (p :: ps) = dropLate st ps) ∧
    ((dropLate [] flvTailPackets).filter (fun p => p.isVideo)).length =
      (flvTailPackets.filter (fun p => p.isVideo)).length - 1 ∧
    (dropLate [] flvTailPackets).length = flvTailPackets.length - 1 ∧
    (dropLate [] flvTailPackets).map Packet.dts = [18800, 18810, 18867, 18870, 18933] := by
  refine ⟨dropLate_audio_preserved, ?_, by decide, by decide, by decide⟩
  intro st p ps d hv hl hd
  simp only [dropLate]
  simp [hv, hl, hd]

/-- Witness for C5: a video packet with DTS 5 against a recorded DTS of
10 on its stream is dropped and the filter state is unchanged. -/
theorem segmenter_drop_late_packets_witness :
    dropLate [(0, 10)] [⟨0, true, 5⟩] = dropLate [(0, 10)] [] :=
  segmenter_drop_late_packets.2.1 [(0, 10)] ⟨0, true, 5⟩ [] 10 (by rfl) (by rfl) (by decide)

/-- C6: the HLS output of the segmenter carries only video and audio
streams; when the input has a video and an audio stream, the output is
exactly one video stream at index 0 followed by one audio stream at
index 1, both taken from the input, whatever the input ordering; and
the subtitle/audio/video test input maps to [video, audio]. -/
theorem segmenter_stream_ordering :
    (∀ ss : List (Nat × AVMediaType), ∀ q ∈ hlsStreamOrder ss,
      q.2 = AVMediaType.video ∨ q.2 = AVMediaType.audio) ∧
    (∀ ss : List (Nat × AVMediaType),
      (∃ v ∈ ss, v.2 = AVMediaType.video) → (∃ a ∈ ss, a.2 = AVMediaType.audio) →
      ∃ v a, hlsStreamOrder ss = [v, a] ∧ v ∈ ss ∧ v.2 = AVMediaType.video ∧
        a ∈ ss ∧ a.2 = AVMediaType.audio) ∧
    hlsStreamOrder [(0, AVMediaType.subtitle), (1, AVMediaType.audio), (2, AVMediaType.video)] =
      [(2, AVMediaType.video), (1, AVMediaType.audio)] := by
  refine ⟨?_, ?_, by decide⟩
  · intro ss q hq
    unfold hlsStreamOrder at hq
    rcases List.mem_append.mp hq with hq2 | hq2
    · have hm := List.mem_filter.mp (List.mem_of_mem_take hq2)
      exact Or.inl (by simpa using hm.2)
    · have hm := List.mem_filter.mp (List.mem_of_mem_take hq2)
      exact Or.inr (by simpa using hm.2)
  · intro ss hv ha
    obtain ⟨v0, hv0, hv0t⟩ := hv
    obtain ⟨a0, ha0, ha0t⟩ := ha
    have hvne : ss.filter (fun q => q.2 = AVMediaType.video) ≠ [] := by
      rw [Ne, List.filter_eq_nil_iff]
      push_neg
      exact ⟨v0, hv0, by simp [hv0t]⟩
    have hane : ss.filter (fun q => q.2 = AVMediaType.audio) ≠ [] := by
      rw [Ne, List.filter_eq_nil_iff]
      push_neg
      exact ⟨a0, ha0, by simp [ha0t]⟩
    obtain ⟨vh, vt, hveq⟩ := List.exists_cons_of_ne_nil hvne
    obtain ⟨ah, at2, haeq⟩ := List.exists_cons_of_ne_nil hane
    have hvm := List.mem_filter.mp (hveq ▸ List.mem_cons_self vh vt)
    have ham := List.mem_filter.mp (haeq ▸ List.mem_cons_self ah at2)
    refine ⟨vh, ah, ?_, hvm.1, by simpa using hvm.2, ham.1, by simpa using ham.2⟩
    unfold hlsStreamOrder
    rw [hveq, haeq]
    rfl

/-- Witness for C6: the subtitle/audio/video input of the stream
ordering test. -/
theorem segmenter_stream_ordering_witness :
    ∃ v a, hlsStreamOrder
        [(0, AVMediaType.subtitle), (1, AVMediaType.audio), (2, AVMediaType.video)] = [v, a] ∧
      v ∈ [(0, AVMediaType.subtitle), (1, AVMediaType.audio), (2, AVMediaType.video)] ∧
      v.2 = AVMediaType.video ∧
      a ∈ [(0, AVMediaType.subtitle), (1, AVMediaType.audio), (2, AVMediaType.video)] ∧
      a.2 = AVMediaType.audio :=
  segmenter_stream_ordering.2.1
    [(0, AVMediaType.subtitle), (1, AVMediaType.audio), (2, AVMediaType.video)]
    ⟨(2, AVMediaType.video), by decide, rfl⟩
    ⟨(1, AVMediaType.audio), by decide, rfl⟩

/-- Unfolding one step of the segment loop. -/
theorem segmentsOnDisk_succ (m n : Nat) :
    segmentsOnDisk m (n + 1) =
      pushSegment (effectiveMaxSegments m) (segmentsOnDisk m n) n := by
  unfold segmentsOnDisk
  rw [List.range_succ, List.foldl_append]
  rfl

/-- The live window after one push has the expected length. -/
theorem pushSegment_length (m : Nat) (live : List Nat) (i : Nat) :
    (pushSegment m live i).length = min (live.length + 1) m := by
  unfold pushSegment
  by_cases hm : m < (live ++ [i]).length
  · rw [if_pos hm]
    simp at hm ⊢
    omega
  · rw [if_neg hm]
    simp at hm ⊢
    omega

/-- The effective window bound is positive. -/
theorem effectiveMaxSegments_pos (m : Nat) : 1 ≤ effectiveMaxSegments m := by
  unfold effectiveMaxSegments defaultMaxSegments
  by_cases hm : m = 0
  · simp [hm]
  · simp [hm]
    omega

/-- C7: whenever the live window is full, pushing a new segment deletes
the oldest one; the number of segment files on disk is the input
segment count capped at the effective window (the default 6 when
`maxSegments` is unset); and a 6-second input segmented at 1 s with the
default window leaves exactly 6 segment files. -/
theorem segmenter_rolling_playlist :
    (∀ (m : Nat) (live : List Nat) (i : Nat), 0 < m → live.length = m →
      pushSegment m live i = live.drop 1 ++ [i]) ∧
    (∀ m n : Nat, (segmentsOnDisk m n).length = min n (effectiveMaxSegments m)) ∧
    segmentRTMPToHLS 6 1 0 = [0, 1, 2, 3, 4, 5] ∧
    (segmentRTMPToHLS 6 1 0).length = 6 ∧
    segmentsOnDisk 0 8 = [2, 3, 4, 5, 6, 7] := by
  refine ⟨?_, ?_, by decide, by decide, by decide⟩
  · intro m live i hm hlen
    unfold pushSegment
    have hlt : m < (live ++ [i]).length := by simp; omega
    rw [if_pos hlt]
    have hδ : (live ++ [i]).length - m = 1 := by simp; omega
    rw [hδ]
    rw [List.drop_append_of_le_length (by omega)]
  · intro m n
    induction n with
    | zero => simp [segmentsOnDisk]
    | succ n2 ih =>
      have h1 := effectiveMaxSegments_pos m
      rw [segmentsOnDisk_succ, pushSegment_length, ih]
      omega

/-- Witness for C7's window step: pushing segment 7 onto the full
window [5, 6] with bound 2 drops the oldest segment 5. -/
theorem segmenter_rolling_playlist_witness :
    pushSegment 2 [5, 6] 7 = ([5, 6] : List Nat).drop 1 ++ [7] :=
  segmenter_rolling_playlist.1 2 [5, 6] 7 (by decide) (by rfl)

/-- C8 (counterexample): on the spec's own 123x456 source with target
426x240 the adjusted output is 64x240, whose longer dimension 240 is
not the target's longer dimension 426 — the general "longer adjusted
dimension matches the target's longer dimension" clause fails. -/
theorem aspect_ratio_longer_dim_counterexample :
    adjustedDims 123 456 426 240 = (64, 240) ∧
    max (adjustedDims 123 456 426 240).1 (adjustedDims 123 456 426 240).2 ≠
      max 426 240 := by
  decide

/-- C8 (amended): the adjustment pins the dimension on the source's
longer axis to the target's dimension on that axis — width when the
source width is at least the height (so a square source pins to the
target width), height otherwise — rounds the scaled dimension to even,
and maps the four listed sources with target 426x240 to 64x240,
64x240, 426x426 and 426x114. -/
theorem aspect_ratio_adjust_amended :
    (∀ w h tw th : Nat, h ≤ w → (adjustedDims w h tw th).1 = tw) ∧
    (∀ w h tw th : Nat, w < h → (adjustedDims w h tw th).2 = th) ∧
    (∀ w h tw th : Nat, h ≤ w → 2 ∣ (adjustedDims w h tw th).2) ∧
    (∀ w h tw th : Nat, w < h → 2 ∣ (adjustedDims w h tw th).1) ∧
    adjustedDims 123 456 426 240 = (64, 240) ∧
    adjustedDims 123 457 426 240 = (64, 240) ∧
    adjustedDims 123 123 426 240 = (426, 426) ∧
    adjustedDims 456 123 426 240 = (426, 114) := by
  refine ⟨?_, ?_, ?_, ?_, by decide, by decide, by decide, by decide⟩
  · intro w h tw th hh
    simp [adjustedDims, hh]
  · intro w h tw th hh
    simp [adjustedDims, not_le.mpr hh]
  · intro w h tw th hh
    simp only [adjustedDims, if_pos hh, roundToEven]
    exact dvd_mul_left 2 _
  · intro w h tw th hh
    simp only [adjustedDims, if_neg (not_le.mpr hh), roundToEven]
    exact dvd_mul_left 2 _

/-- Witness for the amended C8 on a 1280x720 source and its transpose
with target 426x240. -/
theorem aspect_ratio_adjust_amended_witness :
    (adjustedDims 1280 720 426 240).1 = 426 ∧
    (adjustedDims 720 1280 426 240).2 = 240 ∧
    2 ∣ (adjustedDims 1280 720 426 240).2 ∧
    2 ∣ (adjustedDims 720 1280 426 240).1 :=
  ⟨aspect_ratio_adjust_amended.1 1280 720 426 240 (by decide),
   aspect_ratio_adjust_amended.2.1 720 1280 426 240 (by decide),
   aspect_ratio_adjust_amended.2.2.1 1280 720 426 240 (by decide),
   aspect_ratio_adjust_amended.2.2.2.1 720 1280 426 240 (by decide)⟩

end LPMS
